import Mathlib

/-!
Verification development for the MistMatch moderation dashboard
(source: the `Dashboard` client component).

The component's state and handlers are shallowly embedded:
each React `useState` field becomes a field of an explicit state
structure, and each handler becomes a pure state-transition
function.  Remote calls (Supabase queries and mutations) are
modelled by passing their results in as arguments, or, in the
step relations below, by reading an explicit `server` component
that stands for the RecordSource's current pending set.
-/

/-- A user record, transcribed from the `User` type of the source
(`id`, `name`, `age`, `gender`, `country`, `is_verified`,
`created_at`).  Identifiers are the source's opaque id strings;
`created_at` is modelled as the numeric timestamp that
`new Date(created_at).getTime()` yields.  The photo-URL fields
(`image_urls`, `verification_photo_url`, and the derived
`verification_photos`) are presentation-only and never examined
by the controller logic under verification, so they are carried
as plain lists of strings. -/
structure User where
  id : String
  name : Option String := none
  age : Option Nat := none
  gender : Option String := none
  country : Option String := none
  image_urls : List String := []
  is_verified : Option String := none
  created_at : Nat := 0
  verification_photos : List String := []
deriving DecidableEq, Repr

/-- `const PAGE_SIZE = 20` -/
def PAGE_SIZE : Nat := 20

/-- `const LOAD_MORE_THRESHOLD = 3` -/
def LOAD_MORE_THRESHOLD : Nat := 3

/-- The queue-controller state: the `useState` fields of `Dashboard`
that the pending-verification worklist uses, plus
* `server` — the RecordSource's current set of records with
  `is_verified = 'pending'`, in `created_at`-descending order
  (the list that `fetchPendingUsers` returns when it succeeds), and
* `decided` — a history (ghost) field recording the identifiers
  already decided this session; it mirrors no source variable and
  is used only to state the no-readmission invariant. -/
structure QState where
  server : List User
  allPendingUsers : List User
  queueUsers : List User
  totalPending : Nat
  hasMore : Bool
  currentUser : Option User
  isUserVerifying : Bool
  decided : List String
deriving DecidableEq, Repr

/-- The initial component state: `useState` initialisers
(`allPendingUsers = []`, `queueUsers = []`, `totalPending = 0`,
`hasMore = true`, `currentUser = null`, `isUserVerifying = false`),
over a given RecordSource pending set. -/
def qInit (server : List User) : QState :=
  { server := server
    allPendingUsers := []
    queueUsers := []
    totalPending := 0
    hasMore := true
    currentUser := none
    isUserVerifying := false
    decided := [] }

/-- `loadNextBatch(refresh)`, transcribed from the source.  The fetch
result `(users, total)` of `fetchPendingUsers()` is passed in as an
argument (on a failed fetch the source returns `{ users: [], total: 0 }`,
see `fetchFailureResult`). -/
def loadNextBatch (s : QState) (refresh : Bool) (users : List User)
    (total : Nat) : QState :=
  let s0 := { s with totalPending := total }
  if refresh then
    -- On periodic refresh: replace full list, but keep the queue if verifying
    let s1 := { s0 with allPendingUsers := users }
    if !s.isUserVerifying then
      let nextBatch := users.take PAGE_SIZE
      { s1 with queueUsers := nextBatch
                hasMore := decide (users.length > PAGE_SIZE) }
    else s1
  else
    -- Normal load/append
    let s1 := { s0 with allPendingUsers := users }
    let start := s.queueUsers.length
    let nextBatch := (users.drop start).take PAGE_SIZE
    { s1 with queueUsers := s.queueUsers ++ nextBatch
              hasMore := decide (start + nextBatch.length < users.length) }

/-- The `{ users: [], total: 0 }` value that `fetchPendingUsers`
returns when the Supabase query reports an error (after logging it). -/
def fetchFailureResult : List User × Nat := ([], 0)

/-- The operator's decision, the `'verified' | 'rejected'` argument of
`handleDecision`. -/
inductive Decision where
  | verified
  | rejected
deriving DecidableEq, Repr

/-- The `is_verified` value that `handleDecision` writes to the
RecordSource: `decision === 'verified' ? 'verified' : 'unverified'`. -/
def decisionPayload (d : Decision) : String :=
  match d with
  | .verified => "verified"
  | .rejected => "unverified"

/-- The state update that `handleDecision`'s `.then` callback performs
for the current user with identifier `uid`: remove the user from the
queue, decrement `totalPending` (`Math.max(0, prev - 1)`, which is
exactly truncated `Nat` subtraction), and advance `currentUser` to the
new queue head or exit review mode if the queue emptied. -/
def handleDecisionUpdate (s : QState) (uid : String) : QState :=
  let remainingQueue := s.queueUsers.filter (fun u => u.id != uid)
  let s1 := { s with queueUsers := remainingQueue
                     totalPending := s.totalPending - 1 }
  match remainingQueue with
  | [] => { s1 with currentUser := none, isUserVerifying := false }
  | h :: _ => { s1 with currentUser := some h }

/-- `handleDecision(decision)`.  The Supabase update builder is a
thenable that resolves with a `{ data, error }` value and never
rejects (the source's own convention elsewhere is
`const { error } = await ...`), so the `.then(() => { ... })` callback
runs whether the write succeeded or failed; the response, and with it
`writeOk`, is ignored.  The decision value only selects the payload
written remotely (`decisionPayload`) and does not enter the local
update. -/
def handleDecision (s : QState) (d : Decision) (writeOk : Bool) : QState :=
  match s.currentUser with
  | none => s
  | some u =>
    let _ := decisionPayload d
    let _ := writeOk
    handleDecisionUpdate s u.id

/-- `startVerification()`: no-op on an empty queue, otherwise enter
review mode with the queue head as the displayed user. -/
def startVerification (s : QState) : QState :=
  if s.queueUsers.isEmpty then s
  else { s with isUserVerifying := true
                currentUser := s.queueUsers.head? }

/-- One full decision step of the composed system (controller plus
RecordSource): the write sets `is_verified` away from `'pending'`, so
the record drops out of the server's pending set; the controller runs
`handleDecisionUpdate`; the decided identifier is recorded in the
ghost history. -/
def applyDecisionFull (s : QState) (u : User) : QState :=
  let s1 := handleDecisionUpdate s u.id
  { s1 with server := s.server.filter (fun v => v.id != u.id)
            decided := u.id :: s.decided }

/-- JavaScript truthiness of the optional `gender` field: `!u.gender`
is `true` exactly when the field is `null`/`undefined` or the empty
string. -/
def genderTruthy (g : Option String) : Bool :=
  match g with
  | none => false
  | some s => !s.isEmpty

/-- The `genderFilter` state value, `'all' | 'unknown' | 'Male' | 'Female'`. -/
inductive GenderFilter where
  | all
  | unknown
  | male
  | female
deriving DecidableEq, Repr

/-- The string value of a `GenderFilter`, as held in the `<select>`. -/
def GenderFilter.value : GenderFilter → String
  | .all => "all"
  | .unknown => "unknown"
  | .male => "Male"
  | .female => "Female"

/-- The filter predicate of the derived-view effect:
`if (genderFilter === 'unknown') return !u.gender; return u.gender === genderFilter;`. -/
def genderFilterPred (f : GenderFilter) (u : User) : Bool :=
  match f with
  | .unknown => !(genderTruthy u.gender)
  | _ => u.gender == some f.value

/-- The filtering stage of the derived-view effect: the `filter` call
is skipped entirely when `genderFilter === 'all'`. -/
def applyGenderFilter (f : GenderFilter) (users : List User) : List User :=
  if f = .all then users else users.filter (genderFilterPred f)

/-- The `sortOrder` state value, `'desc' | 'asc'`. -/
inductive SortOrder where
  | desc
  | asc
deriving DecidableEq, Repr

/-- The sorting stage of the derived-view effect: ascending or
descending by `new Date(created_at).getTime()`.  JavaScript's
`Array.prototype.sort` is stable, modelled by a stable merge sort. -/
def sortByCreated (o : SortOrder) (l : List User) : List User :=
  match o with
  | .asc => l.mergeSort (fun a b => a.created_at ≤ b.created_at)
  | .desc => l.mergeSort (fun a b => b.created_at ≤ a.created_at)

/-- The gender-review controller state: the `useState` fields of
`Dashboard` that the gender-verification screen uses. -/
structure GState where
  genderUsers : List User
  filteredGenderUsers : List User
  sortOrder : SortOrder
  genderFilter : GenderFilter
  currentPage : Nat
  totalUnknown : Nat
deriving DecidableEq, Repr

/-- The initial gender-review state (`useState` initialisers:
empty lists, `sortOrder = 'desc'`, `genderFilter = 'all'`,
`currentPage = 1`, `totalUnknown = 0`). -/
def gInit : GState :=
  { genderUsers := []
    filteredGenderUsers := []
    sortOrder := .desc
    genderFilter := .all
    currentPage := 1
    totalUnknown := 0 }

/-- The derived-view effect on `[genderUsers, genderFilter, sortOrder]`:
copy the dataset, filter it unless the filter is `'all'`, sort it by
`created_at`, store it as `filteredGenderUsers`, and reset
`currentPage` to 1. -/
def recomputeDerived (s : GState) : GState :=
  let filtered := applyGenderFilter s.genderFilter s.genderUsers
  let sorted := sortByCreated s.sortOrder filtered
  { s with filteredGenderUsers := sorted, currentPage := 1 }

/-- `Math.ceil(filteredGenderUsers.length / PAGE_SIZE)` — the page
count shown as `totalPages`. -/
def totalPages (s : GState) : Nat :=
  (s.filteredGenderUsers.length + PAGE_SIZE - 1) / PAGE_SIZE

/-- Entering the gender-verification screen: `fetchAllUsers` stores its
result in `genderUsers` and `setCurrentPage(1)` runs; the changed
dataset then retriggers the derived-view effect. -/
def loadGenderUsers (s : GState) (users : List User) : GState :=
  recomputeDerived { s with genderUsers := users, currentPage := 1 }

/-- Changing the gender filter `<select>`; the change retriggers the
derived-view effect. -/
def setGenderFilter (s : GState) (f : GenderFilter) : GState :=
  recomputeDerived { s with genderFilter := f }

/-- Changing the sort `<select>`; the change retriggers the
derived-view effect. -/
def setSortOrder (s : GState) (o : SortOrder) : GState :=
  recomputeDerived { s with sortOrder := o }

/-- The Next button: `setCurrentPage(prev => Math.min(totalPages, prev + 1))`. -/
def nextPage (s : GState) : GState :=
  { s with currentPage := min (totalPages s) (s.currentPage + 1) }

/-- The Previous button: `setCurrentPage(prev => Math.max(1, prev - 1))`
(`Nat` subtraction already truncates at 0, and the result is clamped
up to 1). -/
def prevPage (s : GState) : GState :=
  { s with currentPage := max 1 (s.currentPage - 1) }

/-- `handleGenderUpdate(userId, newGender)`: the Supabase error is
checked explicitly in the source; on error only a log happens, on
success the matching record is patched in place by a `map` over
`genderUsers` and `totalUnknown` is decremented
(`Math.max(0, prev - 1)`, i.e. truncated `Nat` subtraction).  The new
`genderUsers` array then retriggers the derived-view effect. -/
def handleGenderUpdate (s : GState) (userId : String) (newGender : String)
    (writeOk : Bool) : GState :=
  if writeOk then
    let patched := s.genderUsers.map
      (fun u => if u.id == userId then { u with gender := some newGender } else u)
    recomputeDerived { s with genderUsers := patched
                              totalUnknown := s.totalUnknown - 1 }
  else s

/-- `fetchUnknownCount().then(setTotalUnknown)`, run on mount and on
every 20-second tick. -/
def setTotalUnknownCount (s : GState) (n : Nat) : GState :=
  { s with totalUnknown := n }

/-- One observable step of the pending-verification session, with
successful fetches: the mount/low-watermark append
(`loadNextBatch()`), the periodic refresh (`loadNextBatch(true)`),
entering review mode (guarded in the source by
`if (queueUsers.length === 0) return` and by the disabled button),
leaving it via the Back button (which clears `isUserVerifying` but
not `currentUser`), and a decision on the displayed user (the
decision buttons are rendered only in review mode).  A fetch returns
the server's current pending set together with its exact count. -/
inductive QStep : QState → QState → Prop where
  | append (s : QState) :
      QStep s (loadNextBatch s false s.server s.server.length)
  | refresh (s : QState) :
      QStep s (loadNextBatch s true s.server s.server.length)
  | startVerify (s : QState) (h : s.queueUsers ≠ []) :
      QStep s { s with isUserVerifying := true
                       currentUser := s.queueUsers.head? }
  | exitVerify (s : QState) :
      QStep s { s with isUserVerifying := false }
  | decide (s : QState) (u : User) (d : Decision)
      (hv : s.isUserVerifying = true) (hc : s.currentUser = some u) :
      QStep s (applyDecisionFull s u)

/-- The states a session can reach from a given initial state. -/
inductive QReach (init : QState) : QState → Prop where
  | refl : QReach init init
  | step {s s' : QState} : QReach init s → QStep s s' → QReach init s'

/-- The session invariant behind the queue claims:
the server's pending set has pairwise-distinct identifiers; the
active queue is an initial segment of it; the queue never outgrows
the last stored snapshot; decided identifiers have left the server's
pending set; and in review mode the displayed user is the queue
head of a non-empty queue. -/
def QInv (s : QState) : Prop :=
  (s.server.map User.id).Nodup ∧
  (∃ r, s.queueUsers ++ r = s.server) ∧
  s.queueUsers.length ≤ s.allPendingUsers.length ∧
  (∀ d ∈ s.decided, ∀ v ∈ s.server, v.id ≠ d) ∧
  (s.isUserVerifying = true →
    s.currentUser = s.queueUsers.head? ∧ s.queueUsers ≠ [])

theorem qInv_init (S : List User) (hS : (S.map User.id).Nodup) :
    QInv (qInit S) := by
  refine ⟨hS, ⟨S, rfl⟩, le_refl _, ?_, ?_⟩
  · intro d hd
    simp [qInit] at hd
  · intro h
    simp [qInit] at h

theorem loadNextBatch_false_spec (s : QState) (users : List User) (total : Nat) :
    loadNextBatch s false users total =
      { s with totalPending := total
               allPendingUsers := users
               queueUsers :=
                 s.queueUsers ++ (users.drop s.queueUsers.length).take PAGE_SIZE
               hasMore :=
                 decide (s.queueUsers.length +
                   ((users.drop s.queueUsers.length).take PAGE_SIZE).length
                     < users.length) } := rfl

theorem loadNextBatch_true_of_verifying (s : QState) (users : List User)
    (total : Nat) (hv : s.isUserVerifying = true) :
    loadNextBatch s true users total =
      { s with totalPending := total, allPendingUsers := users } := by
  simp [loadNextBatch, hv]

theorem loadNextBatch_true_of_idle (s : QState) (users : List User)
    (total : Nat) (hv : s.isUserVerifying = false) :
    loadNextBatch s true users total =
      { s with totalPending := total
               allPendingUsers := users
               queueUsers := users.take PAGE_SIZE
               hasMore := decide (users.length > PAGE_SIZE) } := by
  simp [loadNextBatch, hv]

theorem qInv_append (s : QState) (h : QInv s) :
    QInv (loadNextBatch s false s.server s.server.length) := by
  obtain ⟨hnd, ⟨r, hr⟩, hlen, hdec, hJ⟩ := h
  rw [loadNextBatch_false_spec]
  have hdrop : s.server.drop s.queueUsers.length = r := by
    rw [← hr]; exact List.drop_left _ _
  refine ⟨hnd, ?_, ?_, hdec, ?_⟩
  · refine ⟨r.drop PAGE_SIZE, ?_⟩
    show s.queueUsers ++ (s.server.drop s.queueUsers.length).take PAGE_SIZE
        ++ r.drop PAGE_SIZE = s.server
    rw [hdrop, List.append_assoc, List.take_append_drop, hr]
  · show (s.queueUsers ++ (s.server.drop s.queueUsers.length).take PAGE_SIZE).length
        ≤ s.server.length
    rw [hdrop, ← hr]
    have h1 : (r.take PAGE_SIZE).length ≤ r.length := by
      simp [List.length_take]
    simp only [List.length_append]
    omega
  · intro hv
    obtain ⟨hcur, hne⟩ := hJ hv
    cases hq : s.queueUsers with
    | nil => exact absurd hq hne
    | cons a t =>
      rw [hq] at hcur
      constructor
      · show s.currentUser = ((a :: t) ++ _).head?
        simpa using hcur
      · simp

theorem qInv_refresh (s : QState) (h : QInv s) :
    QInv (loadNextBatch s true s.server s.server.length) := by
  obtain ⟨hnd, ⟨r, hr⟩, hlen, hdec, hJ⟩ := h
  cases hv : s.isUserVerifying
  · rw [loadNextBatch_true_of_idle _ _ _ hv]
    refine ⟨hnd, ⟨s.server.drop PAGE_SIZE, List.take_append_drop _ _⟩, ?_, hdec, ?_⟩
    · show (s.server.take PAGE_SIZE).length ≤ s.server.length
      simp [List.length_take]
    · intro h'
      simp only at h'
      rw [hv] at h'
      exact absurd h' (by simp)
  · rw [loadNextBatch_true_of_verifying _ _ _ hv]
    refine ⟨hnd, ⟨r, hr⟩, ?_, hdec, ?_⟩
    · show s.queueUsers.length ≤ s.server.length
      have := congrArg List.length hr
      simp only [List.length_append] at this
      omega
    · intro _
      exact hJ hv

theorem qInv_decide (s : QState) (u : User) (h : QInv s)
    (hv : s.isUserVerifying = true) (hc : s.currentUser = some u) :
    QInv (applyDecisionFull s u) := by
  obtain ⟨hnd, ⟨r, hr⟩, hlen, hdec, hJ⟩ := h
  obtain ⟨hcur, hne⟩ := hJ hv
  cases hq : s.queueUsers with
  | nil => exact absurd hq hne
  | cons a t =>
    rw [hq] at hcur
    rw [hcur] at hc
    simp only [List.head?_cons, Option.some.injEq] at hc
    subst hc
    -- every member of `t` (and of the rest of the server list) has an
    -- identifier different from the head's, since server identifiers
    -- are pairwise distinct
    have hserver : s.server = a :: (t ++ r) := by
      rw [← hr, hq]; rfl
    have hnotin : a.id ∉ (t ++ r).map User.id := by
      rw [hserver] at hnd
      simp only [List.map_cons, List.nodup_cons] at hnd
      exact hnd.1
    have htpass : ∀ v ∈ t, (v.id != a.id) = true := by
      intro v hv'
      have : v.id ∈ (t ++ r).map User.id :=
        List.mem_map_of_mem _ (List.mem_append_left _ hv')
      simp only [bne_iff_ne, ne_eq]
      intro he
      exact hnotin (he ▸ this)
    have hfiltq : s.queueUsers.filter (fun v => v.id != a.id) = t := by
      rw [hq, List.filter_cons]
      simp only [bne_self_eq_false, Bool.false_eq_true, if_false]
      exact List.filter_eq_self.mpr htpass
    have hfilts : s.server.filter (fun v => v.id != a.id)
        = t ++ r.filter (fun v => v.id != a.id) := by
      rw [hserver, List.filter_cons]
      simp only [bne_self_eq_false, Bool.false_eq_true, if_false,
        List.filter_append, List.filter_eq_self.mpr htpass]
    -- shapes of the post-state
    cases ht : t with
    | nil =>
      have hupd : handleDecisionUpdate s a.id =
          { s with queueUsers := [], totalPending := s.totalPending - 1,
                   currentUser := none, isUserVerifying := false } := by
        unfold handleDecisionUpdate
        rw [hfiltq, ht]
      refine ⟨?_, ⟨r.filter (fun v => v.id != a.id), ?_⟩, ?_, ?_, ?_⟩
      · show ((s.server.filter (fun v => v.id != a.id)).map User.id).Nodup
        exact List.Nodup.sublist ((List.filter_sublist _).map User.id) hnd
      · show (applyDecisionFull s a).queueUsers ++ _ = _
        simp [applyDecisionFull, hupd, hfilts, ht]
      · show (applyDecisionFull s a).queueUsers.length ≤ _
        simp [applyDecisionFull, hupd]
      · intro d hd v hv'
        simp only [applyDecisionFull, hupd] at hd hv'
        simp only [List.mem_cons] at hd
        have hv2 := List.mem_filter.mp hv'
        rcases hd with hd | hd
        · subst hd
          simpa [bne_iff_ne] using hv2.2
        · exact hdec d hd v hv2.1
      · intro hv2
        simp only [applyDecisionFull, hupd] at hv2
        exact absurd hv2 (by simp)
    | cons b l =>
      have hupd : handleDecisionUpdate s a.id =
          { s with queueUsers := b :: l, totalPending := s.totalPending - 1,
                   currentUser := some b } := by
        unfold handleDecisionUpdate
        rw [hfiltq, ht]
      refine ⟨?_, ⟨r.filter (fun v => v.id != a.id), ?_⟩, ?_, ?_, ?_⟩
      · show ((s.server.filter (fun v => v.id != a.id)).map User.id).Nodup
        exact List.Nodup.sublist ((List.filter_sublist _).map User.id) hnd
      · show (applyDecisionFull s a).queueUsers ++ _ = _
        simp [applyDecisionFull, hupd, hfilts, ht]
      · show (applyDecisionFull s a).queueUsers.length ≤ _
        simp only [applyDecisionFull, hupd]
        rw [hq] at hlen
        simp only [List.length_cons] at hlen ⊢
        have := ht ▸ hlen
        simp only [List.length_cons] at this
        omega
      · intro d hd v hv'
        simp only [applyDecisionFull, hupd] at hd hv'
        simp only [List.mem_cons] at hd
        have hv2 := List.mem_filter.mp hv'
        rcases hd with hd | hd
        · subst hd
          simpa [bne_iff_ne] using hv2.2
        · exact hdec d hd v hv2.1
      · intro _
        constructor
        · show (applyDecisionFull s a).currentUser
            = (applyDecisionFull s a).queueUsers.head?
          simp [applyDecisionFull, hupd]
        · show (applyDecisionFull s a).queueUsers ≠ []
          simp [applyDecisionFull, hupd]

theorem qInv_step {s s' : QState} (h : QInv s) (hs : QStep s s') : QInv s' := by
  cases hs with
  | append => exact qInv_append s h
  | refresh => exact qInv_refresh s h
  | startVerify hne =>
    obtain ⟨hnd, hpre, hlen, hdec, _⟩ := h
    exact ⟨hnd, hpre, hlen, hdec, fun _ => ⟨rfl, hne⟩⟩
  | exitVerify =>
    obtain ⟨hnd, hpre, hlen, hdec, _⟩ := h
    refine ⟨hnd, hpre, hlen, hdec, fun hv => absurd hv (by simp)⟩
  | decide u d hv hc => exact qInv_decide s u h hv hc

theorem qInv_reach {init s : QState} (hinit : QInv init)
    (h : QReach init s) : QInv s := by
  induction h with
  | refl => exact hinit
  | step _ hs ih => exact qInv_step ih hs

/-- C1: for every sequence of `loadNextBatch` appends and refreshes
interleaved with decisions on the displayed user (fetches succeeding,
so that each fetch returns the RecordSource's current pending set),
the active queue `queueUsers` contains no identifier more than once,
its length never exceeds the stored snapshot `allPendingUsers`'s
length, and an identifier removed by a decision never reappears in
the queue later in the session. -/
theorem queue_session_invariants (S : List User) (s : QState)
    (hS : (S.map User.id).Nodup) (h : QReach (qInit S) s) :
    (s.queueUsers.map User.id).Nodup ∧
    s.queueUsers.length ≤ s.allPendingUsers.length ∧
    (∀ d ∈ s.decided, d ∉ s.queueUsers.map User.id) := by
  obtain ⟨hnd, ⟨r, hr⟩, hlen, hdec, _⟩ := qInv_reach (qInv_init S hS) h
  have hsub : s.queueUsers.Sublist s.server :=
    hr ▸ List.sublist_append_left _ _
  refine ⟨List.Nodup.sublist (hsub.map User.id) hnd, hlen, ?_⟩
  intro d hd hmem
  obtain ⟨v, hvq, hvid⟩ := List.mem_map.mp hmem
  exact hdec d hd v (hsub.subset hvq) hvid

/-- A record with identifier `toString n`, for concrete sessions. -/
def mkUser (n : Nat) : User := { id := toString n, created_at := n }

def serverW : List User := (List.range 3).map mkUser

def qW0 : QState := qInit serverW

def qW1 : QState := loadNextBatch qW0 false qW0.server qW0.server.length

def qW2 : QState :=
  { qW1 with isUserVerifying := true, currentUser := qW1.queueUsers.head? }

def qW3 : QState := applyDecisionFull qW2 (mkUser 0)

theorem queue_session_invariants_witness :
    (serverW.map User.id).Nodup ∧
    ((qW3.queueUsers.map User.id).Nodup ∧
     qW3.queueUsers.length ≤ qW3.allPendingUsers.length ∧
     (∀ d ∈ qW3.decided, d ∉ qW3.queueUsers.map User.id)) :=
  ⟨by decide,
   queue_session_invariants serverW qW3 (by decide)
    (QReach.step
      (QReach.step
        (QReach.step QReach.refl (QStep.append qW0))
        (QStep.startVerify qW1 (by decide)))
      (QStep.decide qW2 (mkUser 0) Decision.verified (by decide) (by decide)))⟩

/-- C2: on a periodic refresh tick, the snapshot and the total-pending
count are always replaced by the fetched values; the queue is replaced
by the first `PAGE_SIZE` entries of the fetched snapshot (or all of
them, if fewer) when the operator is not reviewing, and is left
completely unchanged when the operator is reviewing. -/
theorem refresh_merge_policy (s : QState) (users : List User) (total : Nat) :
    (loadNextBatch s true users total).allPendingUsers = users ∧
    (loadNextBatch s true users total).totalPending = total ∧
    (loadNextBatch s true users total).queueUsers =
      (if s.isUserVerifying then s.queueUsers else users.take PAGE_SIZE) := by
  cases hv : s.isUserVerifying
  · rw [loadNextBatch_true_of_idle _ _ _ hv]
    simp
  · rw [loadNextBatch_true_of_verifying _ _ _ hv]
    simp

/-- A controller state with a non-empty queue outside review mode,
as left by a successful initial load of `serverW` (3 pending users). -/
def exIdle : QState :=
  { server := serverW
    allPendingUsers := serverW
    queueUsers := serverW
    totalPending := 3
    hasMore := false
    currentUser := none
    isUserVerifying := false
    decided := [] }

/-- C5 counterexample: a refresh cycle whose fetch fails
(`fetchPendingUsers` returns `{ users: [], total: 0 }`) does clear a
previously successful non-empty queue when the operator is not
reviewing: `loadNextBatch(true)` replaces the queue with the first
batch of the empty result. -/
theorem refresh_failure_clears_idle_queue :
    exIdle.isUserVerifying = false ∧
    exIdle.queueUsers ≠ [] ∧
    (loadNextBatch exIdle true fetchFailureResult.1
        fetchFailureResult.2).queueUsers = [] := by decide

/-- C5 amended: a refresh cycle whose fetch fails is treated as an
empty result: the reported total-pending count is zeroed and the
stored snapshot is emptied for that cycle; the queue is left
unchanged while the operator is reviewing, but is cleared (replaced
with the empty first batch) while the operator is not reviewing. -/
theorem refresh_failure_semantics (s : QState) :
    (loadNextBatch s true fetchFailureResult.1 fetchFailureResult.2).totalPending
        = 0 ∧
    (loadNextBatch s true fetchFailureResult.1 fetchFailureResult.2).allPendingUsers
        = [] ∧
    (loadNextBatch s true fetchFailureResult.1 fetchFailureResult.2).queueUsers
        = (if s.isUserVerifying then s.queueUsers else []) := by
  cases hv : s.isUserVerifying
  · rw [loadNextBatch_true_of_idle _ _ _ hv]
    simp [fetchFailureResult]
  · rw [loadNextBatch_true_of_verifying _ _ _ hv]
    simp [fetchFailureResult]

theorem handleDecisionUpdate_spec (s : QState) (uid : String) :
    handleDecisionUpdate s uid =
      (match s.queueUsers.filter (fun v => v.id != uid) with
       | [] =>
         { s with queueUsers := [], totalPending := s.totalPending - 1,
                  currentUser := none, isUserVerifying := false }
       | h :: t =>
         { s with queueUsers := h :: t, totalPending := s.totalPending - 1,
                  currentUser := some h }) := by
  unfold handleDecisionUpdate
  cases s.queueUsers.filter (fun v => v.id != uid) <;> rfl

/-- C6: `handleDecision` writes `is_verified = 'verified'` for an
approval and `'unverified'` for a rejection; the local update removes
the displayed user's identifier from the queue, decrements the
total-pending count by one (floored at zero — truncated `Nat`
subtraction), and advances the displayed user to the new queue head,
or clears it and leaves review mode when the queue emptied. -/
theorem decision_semantics (s : QState) (u : User) (d : Decision)
    (hc : s.currentUser = some u) :
    decisionPayload Decision.verified = "verified" ∧
    decisionPayload Decision.rejected = "unverified" ∧
    u.id ∉ (handleDecision s d true).queueUsers.map User.id ∧
    (handleDecision s d true).totalPending = s.totalPending - 1 ∧
    (handleDecision s d true).currentUser
      = (handleDecision s d true).queueUsers.head? ∧
    ((handleDecision s d true).queueUsers = [] →
      (handleDecision s d true).currentUser = none ∧
      (handleDecision s d true).isUserVerifying = false) := by
  have hred : handleDecision s d true = handleDecisionUpdate s u.id := by
    simp [handleDecision, hc]
  rw [hred, handleDecisionUpdate_spec]
  refine ⟨rfl, rfl, ?_⟩
  have hnotin : u.id ∉ (s.queueUsers.filter
      (fun v => v.id != u.id)).map User.id := by
    intro hmem
    obtain ⟨v, hvf, hvid⟩ := List.mem_map.mp hmem
    have := (List.mem_filter.mp hvf).2
    rw [hvid] at this
    simp at this
  cases hfilt : s.queueUsers.filter (fun v => v.id != u.id) with
  | nil =>
    rw [hfilt] at hnotin
    exact ⟨hnotin, rfl, rfl, fun _ => ⟨rfl, rfl⟩⟩
  | cons b l =>
    rw [hfilt] at hnotin
    exact ⟨hnotin, rfl, rfl, fun hh => absurd hh (by simp)⟩

/-- A controller state mid-review: displayed user `mkUser 0`, queue
`[mkUser 0, mkUser 1, mkUser 2]`. -/
def exReviewing : QState :=
  { server := serverW
    allPendingUsers := serverW
    queueUsers := serverW
    totalPending := 3
    hasMore := false
    currentUser := some (mkUser 0)
    isUserVerifying := true
    decided := [] }

theorem decision_semantics_witness :
    exReviewing.currentUser = some (mkUser 0) ∧
    (mkUser 0).id ∉ (handleDecision exReviewing Decision.rejected
        true).queueUsers.map User.id :=
  ⟨by decide,
   (decision_semantics exReviewing (mkUser 0) Decision.rejected
      (by decide)).2.2.1⟩

/-- C3 counterexample: a decision whose RecordSource write fails does
not leave the controller state unchanged.  The Supabase update
builder resolves with `{ error }` rather than rejecting, so the
single-argument `.then` callback of `handleDecision` runs anyway:
the displayed user is still removed from the queue, the count is
still decremented, and the display still advances. -/
theorem decision_failure_mutates_state :
    handleDecision exReviewing Decision.verified false ≠ exReviewing ∧
    (handleDecision exReviewing Decision.verified false).queueUsers.map User.id
      = [(mkUser 1).id, (mkUser 2).id] ∧
    exReviewing.queueUsers.map User.id
      = [(mkUser 0).id, (mkUser 1).id, (mkUser 2).id] ∧
    (handleDecision exReviewing Decision.verified false).totalPending = 2 ∧
    exReviewing.totalPending = 3 ∧
    (handleDecision exReviewing Decision.verified false).currentUser
      = some (mkUser 1) := by decide

/-- C3 amended: `handleDecision` performs exactly the same local state
update on a failed write as on a successful one (the write outcome is
never inspected): the entry is removed from the queue, the count is
decremented and the display advances regardless, and no error is
logged on this path. -/
theorem decision_failure_same_as_success (s : QState) (d : Decision) :
    handleDecision s d false = handleDecision s d true ∧
    (∀ u, s.currentUser = some u →
      (handleDecision s d false).queueUsers
        = s.queueUsers.filter (fun v => v.id != u.id) ∧
      (handleDecision s d false).totalPending = s.totalPending - 1) := by
  refine ⟨rfl, ?_⟩
  intro u hc
  have hred : handleDecision s d false = handleDecisionUpdate s u.id := by
    simp [handleDecision, hc]
  rw [hred, handleDecisionUpdate_spec]
  cases hfilt : s.queueUsers.filter (fun v => v.id != u.id) with
  | nil => exact ⟨rfl, rfl⟩
  | cons b l => exact ⟨rfl, rfl⟩

theorem decision_failure_same_as_success_witness :
    exReviewing.currentUser = some (mkUser 0) ∧
    (handleDecision exReviewing Decision.verified false).totalPending
      = exReviewing.totalPending - 1 :=
  ⟨by decide,
   ((decision_failure_same_as_success exReviewing Decision.verified).2
      (mkUser 0) (by decide)).2⟩

/-- A `loadNextBatch()` append whose fetch succeeds against the
current RecordSource pending set. -/
def stepAppend (s : QState) : QState :=
  loadNextBatch s false s.server s.server.length

/-- A decision applied to the currently displayed user (no-op when
none is displayed, matching `if (!currentUser) return`). -/
def decideCurrent (s : QState) : QState :=
  match s.currentUser with
  | none => s
  | some u => applyDecisionFull s u

/-- A RecordSource pending set of 45 entries for the concrete
scenario of the spec. -/
def server45 : List User := (List.range 45).map mkUser

/-- The scenario state after the initial load of the 45-entry set. -/
def c4AfterInit : QState := stepAppend (qInit server45)

/-- ... after entering review mode. -/
def c4Reviewing : QState := startVerification c4AfterInit

/-- ... after the reviewer approves 18 users. -/
def c4After18 : QState := decideCurrent^[18] c4Reviewing

/-- ... after the low-watermark append that the 2-entry queue
triggers. -/
def c4Appended : QState := stepAppend c4After18

/-- C4 counterexample: in the 45-entry scenario, after 18 approvals
the queue has 2 entries, and the triggered append grows it to 22
(`start = 2` plus a full 20-entry slice of the refreshed 27-entry
snapshot), not to 20 as claimed. -/
theorem scenario45_append_overshoots :
    c4After18.queueUsers.length = 2 ∧
    c4Appended.queueUsers.length = 22 ∧
    ¬ c4Appended.queueUsers.length = 20 := by decide

/-- C4 amended: with 45 pending entries, the initial load yields a
20-entry queue with `hasMore = true`; after 18 approvals the queue
holds 2 entries — at or below the low-watermark threshold, in review
mode, with `hasMore` still true, and 25 unconsumed entries remaining
(27 on the server, 2 of them queued) — so the automatic append
fires and grows the queue to 22 entries (2 remaining plus a full
20-entry batch), with `hasMore` still true and 5 entries left
unconsumed. -/
theorem scenario45_trace : 
    c4AfterInit.queueUsers.length = 20 ∧
    c4AfterInit.hasMore = true ∧
    c4After18.queueUsers.length = 2 ∧
    c4After18.queueUsers.length ≤ LOAD_MORE_THRESHOLD ∧
    c4After18.isUserVerifying = true ∧
    c4After18.hasMore = true ∧
    c4After18.server.length = 27 ∧
    c4After18.server.length - c4After18.queueUsers.length = 25 ∧
    c4Appended.queueUsers.length = 22 ∧
    c4Appended.hasMore = true ∧
    c4Appended.allPendingUsers.length - c4Appended.queueUsers.length = 5 := by
  decide

/-- One observable step of the gender-verification screen: entering
the screen (fetch of all users), changing the filter or sort
selects, the pagination buttons (rendered only when `totalPages > 0`
and disabled at the respective boundary page), a gender update with
its write outcome, and the periodic unknown-count refresh. -/
inductive GStep : GState → GState → Prop where
  | load (s : GState) (users : List User) :
      GStep s (loadGenderUsers s users)
  | setFilter (s : GState) (f : GenderFilter) :
      GStep s (setGenderFilter s f)
  | setSort (s : GState) (o : SortOrder) :
      GStep s (setSortOrder s o)
  | pageNext (s : GState) (h1 : 0 < totalPages s)
      (h2 : s.currentPage ≠ totalPages s) :
      GStep s (nextPage s)
  | pagePrev (s : GState) (h1 : 0 < totalPages s)
      (h2 : s.currentPage ≠ 1) :
      GStep s (prevPage s)
  | genderUpdate (s : GState) (uid g : String) (ok : Bool) :
      GStep s (handleGenderUpdate s uid g ok)
  | unknownCount (s : GState) (n : Nat) :
      GStep s (setTotalUnknownCount s n)

/-- The states the gender-verification screen can reach from a given
initial state. -/
inductive GReach (init : GState) : GState → Prop where
  | refl : GReach init init
  | step {s s' : GState} : GReach init s → GStep s s' → GReach init s'

/-- The pagination invariant that actually holds: the page index is
at least 1 and at most `max 1 totalPages` (an empty derived view has
`totalPages = 0` while the page index stays 1). -/
def GInv (s : GState) : Prop :=
  1 ≤ s.currentPage ∧ s.currentPage ≤ max 1 (totalPages s)

theorem gInv_step {s s' : GState} (h : GInv s) (hs : GStep s s') : GInv s' := by
  obtain ⟨h1, h2⟩ := h
  cases hs with
  | load users => exact ⟨le_refl 1, le_max_left 1 _⟩
  | setFilter f => exact ⟨le_refl 1, le_max_left 1 _⟩
  | setSort o => exact ⟨le_refl 1, le_max_left 1 _⟩
  | genderUpdate uid g ok =>
    cases ok
    · exact ⟨h1, h2⟩
    · exact ⟨le_refl 1, le_max_left 1 _⟩
  | unknownCount n => exact ⟨h1, h2⟩
  | pageNext hp1 hp2 =>
    have he : totalPages (nextPage s) = totalPages s := rfl
    constructor
    · show 1 ≤ min (totalPages s) (s.currentPage + 1)
      omega
    · show min (totalPages s) (s.currentPage + 1) ≤ max 1 (totalPages (nextPage s))
      rw [he]
      omega
  | pagePrev hp1 hp2 =>
    have he : totalPages (prevPage s) = totalPages s := rfl
    constructor
    · show 1 ≤ max 1 (s.currentPage - 1)
      omega
    · show max 1 (s.currentPage - 1) ≤ max 1 (totalPages (prevPage s))
      rw [he]
      omega

/-- C8 counterexample: the empty derived view is reachable (it is the
initial state of the screen), and there the page index 1 exceeds
`Math.ceil(0 / PAGE_SIZE) = 0`, so the claimed bound
`currentPage ≤ ceil(length / pageSize)` fails in that state (the
pagination display is simply hidden there). -/
theorem page_bound_fails_on_empty_view :
    GReach gInit gInit ∧
    gInit.filteredGenderUsers.length = 0 ∧
    gInit.currentPage = 1 ∧
    totalPages gInit = 0 ∧
    ¬ gInit.currentPage ≤ totalPages gInit :=
  ⟨GReach.refl, by decide, by decide, by decide, by decide⟩

/-- C8 amended: changing the filter or the sort order always resets
the page index to 1, and in every reachable state the page index lies
between 1 and `max 1 (ceil(derivedLength / pageSize))` — the claimed
bound `ceil(derivedLength / pageSize)` itself holds whenever the
derived view is non-empty, while on an empty view the index stays at
1 with the pagination display hidden. -/
theorem pagination_invariant (s : GState) (h : GReach gInit s) :
    (1 ≤ s.currentPage ∧ s.currentPage ≤ max 1 (totalPages s)) ∧
    (∀ f, (setGenderFilter s f).currentPage = 1) ∧
    (∀ o, (setSortOrder s o).currentPage = 1) := by
  refine ⟨?_, fun f => rfl, fun o => rfl⟩
  induction h with
  | refl => exact ⟨le_refl 1, by decide⟩
  | step hr hs ih => exact gInv_step ih hs

/-- A concrete reachable screen state: the unknown-gender filter
selected on the freshly opened screen. -/
def gW : GState := setGenderFilter gInit GenderFilter.unknown

theorem pagination_invariant_witness :
    (1 ≤ gW.currentPage ∧ gW.currentPage ≤ max 1 (totalPages gW)) ∧
    (∀ f, (setGenderFilter gW f).currentPage = 1) ∧
    (∀ o, (setSortOrder gW o).currentPage = 1) :=
  pagination_invariant gW
    (GReach.step GReach.refl (GStep.setFilter gInit GenderFilter.unknown))

/-- C9: over a dataset whose gender values are genuine (never the
degenerate empty string, which the enumerated gender domain
excludes), the `'unknown'` filter yields exactly the records with
unset gender, a named gender filter yields exactly the records whose
gender equals that value, and `'all'` yields the full dataset
unchanged. -/
theorem filter_semantics (ds : List User)
    (hwf : ∀ u ∈ ds, u.gender ≠ some "") :
    applyGenderFilter GenderFilter.unknown ds
      = ds.filter (fun u => decide (u.gender = none)) ∧
    applyGenderFilter GenderFilter.male ds
      = ds.filter (fun u => decide (u.gender = some "Male")) ∧
    applyGenderFilter GenderFilter.female ds
      = ds.filter (fun u => decide (u.gender = some "Female")) ∧
    applyGenderFilter GenderFilter.all ds = ds := by
  refine ⟨?_, ?_, ?_, rfl⟩
  · show ds.filter (genderFilterPred GenderFilter.unknown)
        = ds.filter (fun u => decide (u.gender = none))
    refine List.filter_congr ?_
    intro u hu
    cases hg : u.gender with
    | none => simp [genderFilterPred, genderTruthy, hg]
    | some g =>
      have hne : g ≠ "" := by
        intro he
        exact hwf u hu (by rw [hg, he])
      have hie : g.isEmpty = false := by
        cases h2 : g.isEmpty
        · rfl
        · exact absurd ((String.isEmpty_iff g).mp h2) hne
      simp [genderFilterPred, genderTruthy, hg, hie]
  · show ds.filter (genderFilterPred GenderFilter.male)
        = ds.filter (fun u => decide (u.gender = some "Male"))
    refine List.filter_congr ?_
    intro u _
    show (u.gender == some "Male") = decide (u.gender = some "Male")
    by_cases h : u.gender = some "Male" <;> simp [h]
  · show ds.filter (genderFilterPred GenderFilter.female)
        = ds.filter (fun u => decide (u.gender = some "Female"))
    refine List.filter_congr ?_
    intro u _
    show (u.gender == some "Female") = decide (u.gender = some "Female")
    by_cases h : u.gender = some "Female" <;> simp [h]

/-- A small dataset with one record of each gender state. -/
def dsW : List User :=
  [{ mkUser 0 with gender := some "Male" },
   { mkUser 1 with gender := some "Female" },
   mkUser 2]

theorem filter_semantics_witness :
    (∀ u ∈ dsW, u.gender ≠ some "") ∧
    applyGenderFilter GenderFilter.unknown dsW
      = dsW.filter (fun u => decide (u.gender = none)) :=
  ⟨by decide, (filter_semantics dsW (by decide)).1⟩

/-- A screen state whose single loaded record already has a gender,
with the separately tracked unknown-gender count at 5. -/
def exGKnown : GState :=
  { genderUsers := [{ mkUser 1 with gender := some "Male" }]
    filteredGenderUsers := [{ mkUser 1 with gender := some "Male" }]
    sortOrder := SortOrder.desc
    genderFilter := GenderFilter.all
    currentPage := 1
    totalUnknown := 5 }

/-- C7 counterexample: a successful `handleGenderUpdate` on a record
that already had a gender still decrements the unknown-gender count
(5 to 4) — the decrement is unconditional in the source, not guarded
by the record previously having no gender. -/
theorem gender_update_decrements_unconditionally :
    (∀ u ∈ exGKnown.genderUsers, genderTruthy u.gender = true) ∧
    (handleGenderUpdate exGKnown "1" "Female" true).totalUnknown = 4 ∧
    ¬ (handleGenderUpdate exGKnown "1" "Female" true).totalUnknown
        = exGKnown.totalUnknown := by decide

/-- C7 amended: a successful `handleGenderUpdate(userId, value)`
patches exactly the matching records of the in-memory dataset in
place (position by position, no re-fetch) and decrements the
unknown-gender count by one, floored at zero (truncated `Nat`
subtraction) — unconditionally, whether or not the record previously
had a gender; a failed update changes nothing. -/
theorem gender_update_semantics (s : GState) (uid g : String) :
    (handleGenderUpdate s uid g true).totalUnknown = s.totalUnknown - 1 ∧
    (handleGenderUpdate s uid g true).genderUsers.length
        = s.genderUsers.length ∧
    (∀ (n : Nat), (handleGenderUpdate s uid g true).genderUsers[n]?
        = (s.genderUsers[n]?).map
            (fun (u : User) => if u.id == uid then { u with gender := some g } else u)) ∧
    handleGenderUpdate s uid g false = s := by
  refine ⟨rfl, ?_, ?_, rfl⟩
  · show (s.genderUsers.map _).length = s.genderUsers.length
    exact List.length_map _ _
  · intro n
    show (s.genderUsers.map _)[n]? = _
    exact List.getElem?_map _ _ _

/-- C10: a successful `handleGenderUpdate` in the list view always
lands on page 1: the patched dataset retriggers the derived-view
effect, which recomputes `filteredGenderUsers` from the patched
records and unconditionally resets the page index — whatever page
the operator was on; a failed update leaves the page unchanged. -/
theorem gender_update_resets_page (s : GState) (uid g : String) :
    (handleGenderUpdate s uid g true).currentPage = 1 ∧
    (handleGenderUpdate s uid g true).filteredGenderUsers
      = sortByCreated s.sortOrder (applyGenderFilter s.genderFilter
          (s.genderUsers.map
            (fun u => if u.id == uid then { u with gender := some g } else u))) ∧
    (handleGenderUpdate s uid g false).currentPage = s.currentPage :=
  ⟨rfl, rfl, rfl⟩
